import Mathlib

/-!
Shallow embedding of `SPIRV/spvIR.h`: the in-memory SPIR-V IR
(`Instruction`, `Block`, `Function`, `Module`) and its binary word
emission (`dump`).  C++ `std::vector` fields become Lean lists,
`unsigned int` words become `Nat` with an explicit `% 2 ^ 32` where the
source's 32-bit arithmetic can wrap, `Instruction*` pointers that may be
null become `Option Instruction`, and the by-reference mutation of the
output vector and of the owning `Module` becomes explicit state passing.
-/

namespace spv

/-- Modelled from the spec: the opcode enumeration lives in the included
`spirv.hpp` header, which is not among the sources.  The spec treats
opcodes as opaque tags stored and encoded, never interpreted, so only the
opcodes the IR core itself inspects are given constructors; `OpOther`
stands for every other tag. -/
inductive Op where
  | OpNop
  | OpTypeFunction
  | OpFunction
  | OpFunctionParameter
  | OpFunctionEnd
  | OpVariable
  | OpLoopMerge
  | OpSelectionMerge
  | OpLabel
  | OpBranch
  | OpBranchConditional
  | OpSwitch
  | OpKill
  | OpReturn
  | OpReturnValue
  | OpOther (n : Nat)
deriving DecidableEq, Repr

/-- Modelled from the spec: the numeric value of each opcode tag is fixed
by `spirv.hpp` (not among the sources); the spec only requires the tag to
occupy the low 16 bits of the header word.  The values used here are the
standard SPIR-V ones; no claim depends on a particular assignment. -/
def Op.code : Op → Nat
  | .OpNop => 0
  | .OpTypeFunction => 33
  | .OpFunction => 54
  | .OpFunctionParameter => 55
  | .OpFunctionEnd => 56
  | .OpVariable => 59
  | .OpLoopMerge => 246
  | .OpSelectionMerge => 247
  | .OpLabel => 248
  | .OpBranch => 249
  | .OpBranchConditional => 250
  | .OpSwitch => 251
  | .OpKill => 252
  | .OpReturn => 253
  | .OpReturnValue => 254
  | .OpOther n => n

/-- Modelled from the spec: `WordCountShift` comes from `spirv.hpp` (not
among the sources); the spec fixes the split as word count in the upper
16 bits, opcode in the lower 16 bits of the header word. -/
def WordCountShift : Nat := 16

/-- `const Id NoResult = 0;` -/
def NoResult : Nat := 0

/-- `const Id NoType = 0;` -/
def NoType : Nat := 0

/-- One IR instruction, mirroring `class Instruction`: result id, type id,
opcode, the operand words, the optional packed string words (the
`std::vector<unsigned int>* string` member, null unless
`addStringOperand` was called), and the retained original text. -/
structure Instruction where
  resultId : Nat
  typeId : Nat
  opCode : Op
  operands : List Nat := []
  string : Option (List Nat) := none
  originalString : List Nat := []
deriving DecidableEq, Repr

/-- `Instruction(Id resultId, Id typeId, Op opCode)`: operand list starts
empty, `string` starts null. -/
def Instruction.make (resultId typeId : Nat) (opCode : Op) : Instruction :=
  { resultId := resultId, typeId := typeId, opCode := opCode }

/-- `void addIdOperand(Id id) { operands.push_back(id); }` -/
def Instruction.addIdOperand (i : Instruction) (id : Nat) : Instruction :=
  { i with operands := i.operands ++ [id] }

/-- `void addImmediateOperand(unsigned int immediate)` -/
def Instruction.addImmediateOperand (i : Instruction) (immediate : Nat) : Instruction :=
  { i with operands := i.operands ++ [immediate] }

/-- Packs four byte values into one 32-bit word the way the source writes
`char`s through a `char*` into an `unsigned int` on a little-endian
machine: the first byte is the least significant. -/
def word32 (bs : List Nat) : Nat :=
  bs.foldr (fun b acc => b % 256 + 256 * acc) 0

/-- The `do { ... } while (c != 0)` loop of `addStringOperand` plus its
padding epilogue.  `cs` is the remaining character stream (the caller
appends the terminating NUL), `cur` the bytes written into the current
word so far (`charCount` bytes), `acc` the words pushed so far.  On every
fourth byte the word is pushed and the cursor reset; the loop stops after
consuming a NUL byte, and a partially filled word is zero-padded and
pushed.  The `[]` case is unreachable for NUL-terminated input (reading
past the terminator is out of the source's contract). -/
def stringLoop : List Nat → List Nat → List Nat → List Nat
  | [], cur, acc =>
      if cur.length = 0 then acc
      else acc ++ [word32 (cur ++ List.replicate (4 - cur.length) 0)]
  | c :: rest, cur, acc =>
      let cur' := cur ++ [c % 256]
      if cur'.length = 4 then
        (if c % 256 ≠ 0 then stringLoop rest [] (acc ++ [word32 cur'])
         else acc ++ [word32 cur'])
      else
        (if c % 256 ≠ 0 then stringLoop rest cur' acc
         else acc ++ [word32 (cur' ++ List.replicate (4 - cur'.length) 0)])

/-- The word sequence `addStringOperand(str)` builds, where `str` holds
the bytes of the C string before its terminating NUL. -/
def packString (str : List Nat) : List Nat :=
  stringLoop (str ++ [0]) [] []

/-- `void addStringOperand(const char* str)`: stores the packed words in
the `string` member and the original text in `originalString`. -/
def Instruction.addStringOperand (i : Instruction) (str : List Nat) : Instruction :=
  { i with string := some (packString str), originalString := str }

/-- `void dump(std::vector<unsigned int>& out) const` of `Instruction`:
computes the word count (1, plus one each for a present type id and
result id, plus the operand count, plus the string word count when the
string pointer is non-null), pushes the header word
`(wordCount << WordCountShift) | opCode` (32-bit arithmetic), then the
type id, the result id, the operands and the string words. -/
def Instruction.dump (i : Instruction) (out : List Nat) : List Nat :=
  let wordCount := 1
  let wordCount := if i.typeId ≠ 0 then wordCount + 1 else wordCount
  let wordCount := if i.resultId ≠ 0 then wordCount + 1 else wordCount
  let wordCount := wordCount + i.operands.length
  let wordCount :=
    match i.string with
    | some s => wordCount + s.length
    | none => wordCount
  let out := out ++ [((wordCount <<< WordCountShift) % 2 ^ 32) ||| Op.code i.opCode]
  let out := if i.typeId ≠ 0 then out ++ [i.typeId] else out
  let out := if i.resultId ≠ 0 then out ++ [i.resultId] else out
  let out := out ++ i.operands
  match i.string with
  | some s => out ++ s
  | none => out

/-- Word count of an instruction's encoding, written the way the spec
states it, for comparison with what `Instruction.dump` emits. -/
def Instruction.specWordCount (i : Instruction) : Nat :=
  1 + (if i.typeId ≠ 0 then 1 else 0) + (if i.resultId ≠ 0 then 1 else 0)
    + i.operands.length + (i.string.getD []).length

/-- Header word as the spec states it: word count in the upper 16 bits,
opcode in the lower 16 bits, in 32-bit arithmetic. -/
def Instruction.specHeaderWord (i : Instruction) : Nat :=
  ((i.specWordCount <<< WordCountShift) % 2 ^ 32) ||| Op.code i.opCode

/-- Full encoding of one instruction as the spec states it: header, then
type id (if present), then result id (if present), then operands, then
string words. -/
def Instruction.specWords (i : Instruction) : List Nat :=
  i.specHeaderWord
    :: ((if i.typeId ≠ 0 then [i.typeId] else [])
      ++ (if i.resultId ≠ 0 then [i.resultId] else [])
      ++ i.operands ++ i.string.getD [])

theorem instruction_dump_eq (i : Instruction) (out : List Nat) :
    i.dump out = out ++ i.specWords := by
  unfold Instruction.dump Instruction.specWords Instruction.specHeaderWord
    Instruction.specWordCount
  cases hs : i.string <;>
    by_cases ht : i.typeId ≠ 0 <;>
      by_cases hr : i.resultId ≠ 0 <;>
        simp [ht, hr, hs, List.append_assoc]

theorem instruction_dump_append (i : Instruction) (out : List Nat) :
    i.dump out = out ++ i.dump [] := by
  rw [instruction_dump_eq, instruction_dump_eq]
  simp

/-- One basic block, mirroring `class Block`: the owned instruction
sequence (element 0 is the label), the predecessor and successor edge
lists (`Block*` pointers, modelled by the referenced blocks' label ids),
the hoisted local-variable instructions and the `unreachable` flag.  The
`Function& parent` back-reference is passed explicitly to the operations
that use it. -/
structure Block where
  instructions : List Instruction := []
  predecessors : List Nat := []
  successors : List Nat := []
  localVariables : List Instruction := []
  unreachable : Bool := false
deriving DecidableEq, Repr

/-- One function, mirroring `class Function`: the `OpFunction` defining
instruction, the parameter instructions and the owned blocks.  The
`Module& parent` back-reference is passed explicitly where used. -/
structure Function where
  functionInstruction : Instruction
  parameterInstructions : List Instruction := []
  blocks : List Block := []
deriving DecidableEq, Repr

/-- The compilation unit, mirroring `class Module`: the owned functions
and the `idToInstruction` growable table (`std::vector<Instruction*>`,
null entries become `none`). -/
structure Module where
  functions : List Function := []
  idToInstruction : List (Option Instruction) := []
deriving DecidableEq, Repr

/-- `void mapInstruction(Instruction *instruction)`: when the result id
does not fit the table, `resize(resultId + 16)` grows it with null
entries (the resize only ever grows here, since the new size exceeds the
id which is at least the current size); then the slot is overwritten. -/
def Module.mapInstruction (m : Module) (instruction : Instruction) : Module :=
  let resultId := instruction.resultId
  let tbl :=
    if m.idToInstruction.length ≤ resultId then
      m.idToInstruction ++ List.replicate (resultId + 16 - m.idToInstruction.length) none
    else m.idToInstruction
  { m with idToInstruction := tbl.set resultId (some instruction) }

/-- `Instruction* getInstruction(Id id) const { return idToInstruction[id]; }`
Reading a slot that was never grown to is out of the source's contract
and is modelled as `none` (a null entry reads the same way). -/
def Module.getInstruction (m : Module) (id : Nat) : Option Instruction :=
  m.idToInstruction.getD id none

/-- `void addFunction(Function *fun) { functions.push_back(fun); }` -/
def Module.addFunction (m : Module) (fn : Function) : Module :=
  { m with functions := m.functions ++ [fn] }

/-- `Block::Block(Id id, Function& parent)`: pushes a fresh
`Instruction(id, NoType, OpLabel)` as the only instruction and clears
`unreachable`.  The constructor reads or writes nothing else; in
particular it never touches the owning function or module, so the module
state is threaded through unchanged. -/
def Block.construct (id : Nat) (m : Module) : Block × Module :=
  ({ instructions := [Instruction.make id NoType Op.OpLabel], unreachable := false }, m)

/-- `void Block::addInstruction(Instruction* inst)`: appends, then maps
the result id with the owning module (`parent.getParent()`) exactly when
it is non-zero. -/
def Block.addInstruction (b : Block) (inst : Instruction) (m : Module) : Block × Module :=
  let b' := { b with instructions := b.instructions ++ [inst] }
  if inst.resultId ≠ 0 then (b', m.mapInstruction inst) else (b', m)

/-- `instructions.insert(instructions.begin() + n, inst)` for a
`std::vector`: the new element ends up at index `n`. -/
def insertAt (n : Nat) (inst : Instruction) (l : List Instruction) : List Instruction :=
  l.take n ++ inst :: l.drop n

/-- Opcode found at index `k`, defaulting to `OpNop` out of range (every
use in the source is guarded so the index is in range). -/
def opAt (l : List Instruction) (k : Nat) : Op :=
  match l.get? k with
  | some i => i.opCode
  | none => Op.OpNop

/-- `void Block::insertInstructionBeforeTerminal(Instruction* inst)`:
switches on `instructions.back()->getOpCode()`.  Conditional branch or
switch insert at `end() - 2`; unconditional branch inserts at `end() - 2`
when the block has more than one instruction and the second-to-last is an
`OpLoopMerge`, else at `end() - 1`; kill and the returns insert at
`--end()`; anything else is appended.  `back()` on an empty vector is out
of the source's contract (blocks always hold their label); the `none`
case is modelled as a plain append. -/
def insertBeforeTerminal (l : List Instruction) (inst : Instruction) : List Instruction :=
  match l.getLast? with
  | none => l ++ [inst]
  | some last =>
    match last.opCode with
    | Op.OpBranchConditional => insertAt (l.length - 2) inst l
    | Op.OpSwitch => insertAt (l.length - 2) inst l
    | Op.OpBranch =>
        if 1 < l.length ∧ opAt l (l.length - 2) = Op.OpLoopMerge then
          insertAt (l.length - 2) inst l
        else insertAt (l.length - 1) inst l
    | Op.OpKill => insertAt (l.length - 1) inst l
    | Op.OpReturn => insertAt (l.length - 1) inst l
    | Op.OpReturnValue => insertAt (l.length - 1) inst l
    | _ => l ++ [inst]

/-- Block-level wrapper of `insertBeforeTerminal`. -/
def Block.insertInstructionBeforeTerminal (b : Block) (inst : Instruction) : Block :=
  { b with instructions := insertBeforeTerminal b.instructions inst }

/-- `void Block::dump(std::vector<unsigned int>& out) const`: returns at
once for a degenerate unreachable block (`unreachable` set and at most 2
instructions); otherwise dumps `instructions[0]`, every local variable,
then `instructions[1..]`.  Reading `instructions[0]` of an empty block is
out of the source's contract (blocks always hold their label); that case
is modelled as emitting nothing. -/
def Block.dump (b : Block) (out : List Nat) : List Nat :=
  if b.unreachable ∧ b.instructions.length ≤ 2 then out
  else
    match b.instructions with
    | [] => out
    | i0 :: rest =>
        rest.foldl (fun o i => i.dump o)
          (b.localVariables.foldl (fun o i => i.dump o) (i0.dump out))

/-- `void Function::dump(std::vector<unsigned int>& out) const`: the
defining instruction, the parameters, the blocks, then a fresh
`Instruction end(0, 0, OpFunctionEnd)` is dumped. -/
def Function.dump (f : Function) (out : List Nat) : List Nat :=
  (Instruction.make 0 0 Op.OpFunctionEnd).dump
    (f.blocks.foldl (fun o b => b.dump o)
      (f.parameterInstructions.foldl (fun o i => i.dump o)
        (f.functionInstruction.dump out)))

/-- `void Module::dump(std::vector<unsigned int>& out) const`: every
function in order. -/
def Module.dump (m : Module) (out : List Nat) : List Nat :=
  m.functions.foldl (fun o f => f.dump o) out

/-- Modelled from the spec: `FunctionControlMaskNone` comes from
`spirv.hpp` (not among the sources); the spec calls it the control mask
"none", so its value is 0. -/
def FunctionControlMaskNone : Nat := 0

/-- One parameter instruction of the `Function` constructor loop body:
`new Instruction(firstParamId + p, typeInst->getIdOperand(p + 1),
OpFunctionParameter)`.  `firstParamId + p` is `Id` (32-bit) arithmetic,
hence the `% 2 ^ 32`; the operand read is guarded in range by the loop
bound. -/
def mkParamInstruction (firstParamId : Nat) (typeInst : Instruction) (p : Nat) : Instruction :=
  Instruction.make ((firstParamId + p) % 2 ^ 32) (typeInst.operands.getD (p + 1) 0)
    Op.OpFunctionParameter

/-- The `for (int p = 0; p < numParams; ++p)` loop of the `Function`
constructor, recursing on the number of remaining iterations (`rem`)
with `p` the current loop counter: build the parameter instruction, map
it with the module, collect it. -/
def paramLoopGo (firstParamId : Nat) (typeInst : Instruction) :
    Nat → Nat → Module → List Instruction × Module
  | 0, _, m => ([], m)
  | rem + 1, p, m =>
      let param := mkParamInstruction firstParamId typeInst p
      let res := paramLoopGo firstParamId typeInst rem (p + 1) (m.mapInstruction param)
      (param :: res.1, res.2)

/-- `Function::Function(Id id, Id resultType, Id functionType, Id
firstParamId, Module& parent)`: builds the `OpFunction` instruction with
the control-mask immediate and the function-type id operand, maps it,
registers the function with the module, then looks the function type up
and synthesizes `getNumOperands() - 1` parameters (operand 0 is the
return type).  In the source `addFunction(this)` stores a pointer to the
object being built, so the module's list holds the completed function;
with value semantics the completed function is appended at the end, and
an unregistered function type (a garbage-pointer dereference in the
source, out of contract) yields no parameters.  A function type with no
operands gives `numParams == -1` in the source and the loop runs zero
times, matching the truncated subtraction here. -/
def Function.construct (id resultType functionType firstParamId : Nat) (m : Module) :
    Function × Module :=
  let fi := ((Instruction.make id resultType Op.OpFunction).addImmediateOperand
      FunctionControlMaskNone).addIdOperand functionType
  let m1 := m.mapInstruction fi
  match m1.getInstruction functionType with
  | none =>
      let f : Function := { functionInstruction := fi }
      (f, m1.addFunction f)
  | some typeInst =>
      let numParams := typeInst.operands.length - 1
      let pr := paramLoopGo firstParamId typeInst numParams 0 m1
      let f : Function := { functionInstruction := fi, parameterInstructions := pr.1 }
      (f, pr.2.addFunction f)

/-!  Lemmas about the id table.  -/

theorem getD_replicate_none {α : Type} :
    ∀ (n j : Nat), (List.replicate n (none : Option α)).getD j none = none := by
  intro n
  induction n with
  | zero => intro j; rfl
  | succ k ih =>
      intro j
      cases j with
      | zero => rfl
      | succ j => exact ih j

theorem getD_append_replicate_none {α : Type} :
    ∀ (l : List (Option α)) (n j : Nat),
      (l ++ List.replicate n none).getD j none = l.getD j none := by
  intro l
  induction l with
  | nil => intro n j; exact getD_replicate_none n j
  | cons a t ih =>
      intro n j
      cases j with
      | zero => rfl
      | succ j => simpa [List.getD] using ih n j

theorem getD_set_self {α : Type} :
    ∀ (l : List (Option α)) (i : Nat) (v : Option α), i < l.length →
      (l.set i v).getD i none = v := by
  intro l
  induction l with
  | nil => intro i v h; simp at h
  | cons a t ih =>
      intro i v h
      cases i with
      | zero => rfl
      | succ i =>
          simp only [List.length_cons, Nat.succ_lt_succ_iff] at h
          simpa [List.getD] using ih i v h

theorem getD_set_ne {α : Type} :
    ∀ (l : List (Option α)) (i j : Nat) (v : Option α), i ≠ j →
      (l.set i v).getD j none = l.getD j none := by
  intro l
  induction l with
  | nil => intro i j v _; simp
  | cons a t ih =>
      intro i j v hij
      cases i with
      | zero =>
          cases j with
          | zero => exact absurd rfl hij
          | succ j => rfl
      | succ i =>
          cases j with
          | zero => rfl
          | succ j =>
              have : i ≠ j := fun h => hij (by rw [h])
              simpa [List.getD] using ih i j v this

theorem Module.getInstruction_mapInstruction_self (m : Module) (inst : Instruction) :
    (m.mapInstruction inst).getInstruction inst.resultId = some inst := by
  unfold Module.mapInstruction Module.getInstruction
  by_cases h : m.idToInstruction.length ≤ inst.resultId
  · simp only [h, if_pos]
    apply getD_set_self
    simp only [List.length_append, List.length_replicate]
    omega
  · simp only [h, if_neg, not_false_iff]
    exact getD_set_self _ _ _ (by omega)

theorem Module.getInstruction_mapInstruction_ne (m : Module) (inst : Instruction)
    (j : Nat) (h : j ≠ inst.resultId) :
    (m.mapInstruction inst).getInstruction j = m.getInstruction j := by
  unfold Module.mapInstruction Module.getInstruction
  by_cases hg : m.idToInstruction.length ≤ inst.resultId
  · simp only [hg, if_pos]
    rw [getD_set_ne _ _ _ _ (fun hh => h hh.symm), getD_append_replicate_none]
  · simp only [hg, if_neg, not_false_iff]
    exact getD_set_ne _ _ _ _ (fun hh => h hh.symm)

theorem Module.length_mapInstruction_of_grow (m : Module) (inst : Instruction)
    (h : m.idToInstruction.length ≤ inst.resultId) :
    (m.mapInstruction inst).idToInstruction.length = inst.resultId + 16 := by
  unfold Module.mapInstruction
  simp only [h, if_pos, List.length_set, List.length_append, List.length_replicate]
  omega

theorem foldl_mapInstruction_not_mem :
    ∀ (insts : List Instruction) (m : Module) (id : Nat),
      (∀ i ∈ insts, i.resultId ≠ id) →
      (insts.foldl Module.mapInstruction m).getInstruction id = m.getInstruction id := by
  intro insts
  induction insts with
  | nil => intro m id _; rfl
  | cons a t ih =>
      intro m id h
      have ha : a.resultId ≠ id := h a (List.mem_cons_self a t)
      have ht : ∀ i ∈ t, i.resultId ≠ id := fun i hi => h i (List.mem_cons_of_mem a hi)
      calc ((a :: t).foldl Module.mapInstruction m).getInstruction id
          = (t.foldl Module.mapInstruction (m.mapInstruction a)).getInstruction id := rfl
        _ = (m.mapInstruction a).getInstruction id := ih (m.mapInstruction a) id ht
        _ = m.getInstruction id :=
            Module.getInstruction_mapInstruction_ne m a id (fun hh => ha hh.symm)

theorem foldl_mapInstruction_mem :
    ∀ (insts : List Instruction) (m : Module) (inst : Instruction),
      inst ∈ insts →
      (insts.map Instruction.resultId).Pairwise (· ≠ ·) →
      (insts.foldl Module.mapInstruction m).getInstruction inst.resultId = some inst := by
  intro insts
  induction insts with
  | nil => intro m inst h _; simp at h
  | cons a t ih =>
      intro m inst hmem hpw
      rw [List.map_cons, List.pairwise_cons] at hpw
      rcases List.mem_cons.mp hmem with heq | hmem'
      · subst heq
        have ht : ∀ i ∈ t, i.resultId ≠ inst.resultId := by
          intro i hi
          exact fun hh => (hpw.1 i.resultId (List.mem_map_of_mem Instruction.resultId hi)) hh.symm
        calc ((inst :: t).foldl Module.mapInstruction m).getInstruction inst.resultId
            = (t.foldl Module.mapInstruction (m.mapInstruction inst)).getInstruction inst.resultId := rfl
          _ = (m.mapInstruction inst).getInstruction inst.resultId :=
              foldl_mapInstruction_not_mem t (m.mapInstruction inst) inst.resultId ht
          _ = some inst := Module.getInstruction_mapInstruction_self m inst
      · exact ih (m.mapInstruction a) inst hmem' hpw.2

/-!  Lemmas about emission: every `dump` only appends.  -/

theorem foldl_instr_dump :
    ∀ (is : List Instruction) (out : List Nat),
      is.foldl (fun o i => i.dump o) out
        = out ++ (is.map (fun i => i.dump [])).flatten := by
  intro is
  induction is with
  | nil => intro out; simp
  | cons a t ih =>
      intro out
      calc (a :: t).foldl (fun o i => i.dump o) out
          = t.foldl (fun o i => i.dump o) (a.dump out) := rfl
        _ = a.dump out ++ (t.map (fun i => i.dump [])).flatten := ih (a.dump out)
        _ = (out ++ a.dump []) ++ (t.map (fun i => i.dump [])).flatten := by
            rw [instruction_dump_append]
        _ = out ++ ((a :: t).map (fun i => i.dump [])).flatten := by
            simp [List.append_assoc]

theorem block_dump_append (b : Block) (out : List Nat) :
    b.dump out = out ++ b.dump [] := by
  unfold Block.dump
  by_cases hskip : b.unreachable ∧ b.instructions.length ≤ 2
  · simp [hskip]
  · rw [if_neg hskip, if_neg hskip]
    cases hins : b.instructions with
    | nil => simp
    | cons i0 rest =>
        show rest.foldl (fun o i => i.dump o)
            (b.localVariables.foldl (fun o i => i.dump o) (i0.dump out))
          = out ++ rest.foldl (fun o i => i.dump o)
            (b.localVariables.foldl (fun o i => i.dump o) (i0.dump []))
        rw [foldl_instr_dump, foldl_instr_dump, foldl_instr_dump, foldl_instr_dump,
          instruction_dump_append i0 out]
        simp [List.append_assoc]

theorem foldl_block_dump :
    ∀ (bs : List Block) (out : List Nat),
      bs.foldl (fun o b => b.dump o) out
        = out ++ (bs.map (fun b => b.dump [])).flatten := by
  intro bs
  induction bs with
  | nil => intro out; simp
  | cons a t ih =>
      intro out
      calc (a :: t).foldl (fun o b => b.dump o) out
          = t.foldl (fun o b => b.dump o) (a.dump out) := rfl
        _ = a.dump out ++ (t.map (fun b => b.dump [])).flatten := ih (a.dump out)
        _ = (out ++ a.dump []) ++ (t.map (fun b => b.dump [])).flatten := by
            rw [block_dump_append]
        _ = out ++ ((a :: t).map (fun b => b.dump [])).flatten := by
            simp [List.append_assoc]

theorem function_dump_eq (f : Function) (out : List Nat) :
    f.dump out = out ++ f.functionInstruction.dump []
      ++ (f.parameterInstructions.map (fun i => i.dump [])).flatten
      ++ (f.blocks.map (fun b => b.dump [])).flatten
      ++ (Instruction.make 0 0 Op.OpFunctionEnd).dump [] := by
  unfold Function.dump
  rw [instruction_dump_append f.functionInstruction out, foldl_instr_dump, foldl_block_dump,
    instruction_dump_append (Instruction.make 0 0 Op.OpFunctionEnd)]

theorem function_dump_append (f : Function) (out : List Nat) :
    f.dump out = out ++ f.dump [] := by
  rw [function_dump_eq, function_dump_eq]
  simp [List.append_assoc]

theorem foldl_function_dump :
    ∀ (fs : List Function) (out : List Nat),
      fs.foldl (fun o f => f.dump o) out
        = out ++ (fs.map (fun f => f.dump [])).flatten := by
  intro fs
  induction fs with
  | nil => intro out; simp
  | cons a t ih =>
      intro out
      calc (a :: t).foldl (fun o f => f.dump o) out
          = t.foldl (fun o f => f.dump o) (a.dump out) := rfl
        _ = a.dump out ++ (t.map (fun f => f.dump [])).flatten := ih (a.dump out)
        _ = (out ++ a.dump []) ++ (t.map (fun f => f.dump [])).flatten := by
            rw [function_dump_append]
        _ = out ++ ((a :: t).map (fun f => f.dump [])).flatten := by
            simp [List.append_assoc]

theorem module_dump_append (m : Module) (out : List Nat) :
    m.dump out = out ++ m.dump [] := by
  unfold Module.dump
  rw [foldl_function_dump, foldl_function_dump]
  simp

/-!  Lemmas about the parameter-synthesis loop of the `Function`
constructor.  -/

theorem paramLoopGo_fst (firstParamId : Nat) (typeInst : Instruction) :
    ∀ (rem p : Nat) (m : Module),
      (paramLoopGo firstParamId typeInst rem p m).1
        = (List.range' p rem).map (mkParamInstruction firstParamId typeInst) := by
  intro rem
  induction rem with
  | zero => intro p m; rfl
  | succ k ih =>
      intro p m
      show mkParamInstruction firstParamId typeInst p
          :: (paramLoopGo firstParamId typeInst k (p + 1)
            (m.mapInstruction (mkParamInstruction firstParamId typeInst p))).1
        = (List.range' p (k + 1)).map (mkParamInstruction firstParamId typeInst)
      rw [ih, List.range'_succ]
      rfl

theorem paramLoopGo_snd (firstParamId : Nat) (typeInst : Instruction) :
    ∀ (rem p : Nat) (m : Module),
      (paramLoopGo firstParamId typeInst rem p m).2
        = ((paramLoopGo firstParamId typeInst rem p m).1).foldl Module.mapInstruction m := by
  intro rem
  induction rem with
  | zero => intro p m; rfl
  | succ k ih =>
      intro p m
      show (paramLoopGo firstParamId typeInst k (p + 1)
            (m.mapInstruction (mkParamInstruction firstParamId typeInst p))).2
        = ((paramLoopGo firstParamId typeInst (k + 1) p m).1).foldl Module.mapInstruction m
      rw [ih]
      rfl

theorem Module.getInstruction_addFunction (m : Module) (f : Function) (id : Nat) :
    (m.addFunction f).getInstruction id = m.getInstruction id := rfl

/-!  List helpers for the terminator-aware insertion.  -/

theorem drop_length_sub_one {α : Type} :
    ∀ (l : List α) (a : α), l.getLast? = some a → l.drop (l.length - 1) = [a] := by
  intro l
  induction l with
  | nil => intro a h; simp at h
  | cons x t ih =>
      intro a h
      cases t with
      | nil => simp_all
      | cons y s =>
          rw [List.getLast?_cons_cons] at h
          have hrec := ih a h
          have hlen : (x :: y :: s).length - 1 = ((y :: s).length - 1) + 1 := by
            simp
          rw [hlen, List.drop_succ_cons, hrec]

/-!  The claims.  -/

/-- C1: `Instruction::dump` appends a header word equal to
`(wordCount << 16) | opcode` (32-bit arithmetic, the shift width fixed by
`WordCountShift`), then the type-id word if a type id is present, then
the result-id word if a result id is present, then all operand words in
order, then all string words in order, where the word count is 1 plus one
for each present id plus the operand count plus the string word count —
`specWords` spells out exactly that layout. -/
theorem C1_instruction_dump_encoding (i : Instruction) (out : List Nat) :
    i.dump out = out ++ i.specWords :=
  instruction_dump_eq i out

/-- C2 counterexample: calling `addStringOperand` with the 4-byte string
"abcd" (bytes 97, 98, 99, 100) does NOT store exactly one word: the
terminating NUL does not fit the packed word, so a second, zero word is
stored. -/
theorem C2_counterexample :
    ¬((((Instruction.make 1 0 Op.OpNop).addStringOperand [97, 98, 99, 100]).string.getD
        []).length = 1) := by
  decide

/-- C2 amended: calling `addStringOperand` with the 4-byte string "abcd"
stores exactly two words — one packed word with the bytes
'a','b','c','d' and one all-zero word holding the NUL terminator and its
padding; calling it with "ab" stores exactly one word with bytes
'a','b',0,0. -/
theorem C2_string_words_amended :
    ((Instruction.make 1 0 Op.OpNop).addStringOperand [97, 98, 99, 100]).string
        = some [1684234849, 0]
      ∧ ((Instruction.make 1 0 Op.OpNop).addStringOperand [97, 98]).string = some [25185] := by
  decide

/-- C4 counterexample: constructing a `Block` with id 5 against an empty
module registers nothing — the module is returned untouched and looking
the block's id up immediately after construction finds no instruction,
contradicting the claimed eager registration. -/
theorem C4_counterexample :
    (Block.construct 5 ({} : Module)).2.getInstruction 5 = none
      ∧ (Block.construct 5 ({} : Module)).2 = ({} : Module) :=
  ⟨rfl, rfl⟩

/-- C4 amended: constructing a `Block` with a given id creates a
label-opcode instruction with that id and no type as the block's first
(and only) instruction, but does not register it anywhere: the owning
module is left unchanged, so the block cannot be found via its own id
until something else maps the label. -/
theorem C4_block_construct_amended (id : Nat) (m : Module) :
    (Block.construct id m).1.instructions = [Instruction.make id NoType Op.OpLabel]
      ∧ (Block.construct id m).1.unreachable = false
      ∧ (Block.construct id m).2 = m :=
  ⟨rfl, rfl, rfl⟩

/-- C8: `Function::dump` emits the defining instruction, then every
parameter instruction in order, then every block in order, then a
function-end instruction with no result id, no type id and no operands,
which therefore occupies exactly one word: its header with word count 1. -/
theorem C8_function_dump (f : Function) (out : List Nat) :
    f.dump out = out ++ f.functionInstruction.dump []
      ++ (f.parameterInstructions.map (fun i => i.dump [])).flatten
      ++ (f.blocks.map (fun b => b.dump [])).flatten
      ++ [((1 <<< WordCountShift) % 2 ^ 32) ||| Op.code Op.OpFunctionEnd] := by
  have hend : (Instruction.make 0 0 Op.OpFunctionEnd).dump []
      = [((1 <<< WordCountShift) % 2 ^ 32) ||| Op.code Op.OpFunctionEnd] := by decide
  rw [function_dump_eq, hend]

/-- C9: `Block::addInstruction` appends the instruction to the block's
sequence and, exactly when the instruction carries a non-zero result id,
registers it with the owning module at once — a lookup of that id right
after the call returns the added instruction; with a zero result id the
module is untouched. -/
theorem C9_block_addInstruction (b : Block) (inst : Instruction) (m : Module) :
    (b.addInstruction inst m).1.instructions = b.instructions ++ [inst]
      ∧ (inst.resultId ≠ 0 →
          (b.addInstruction inst m).2.getInstruction inst.resultId = some inst)
      ∧ (inst.resultId = 0 → (b.addInstruction inst m).2 = m) := by
  unfold Block.addInstruction
  by_cases h : inst.resultId ≠ 0
  · rw [if_pos h]
    exact ⟨rfl, fun _ => Module.getInstruction_mapInstruction_self m inst,
      fun h0 => absurd h0 h⟩
  · rw [if_neg h]
    exact ⟨rfl, fun hne => absurd hne h, fun _ => rfl⟩

/-- C9 witness: appending an instruction with result id 7 to a block
holding only its label puts it at the end and makes it retrievable from
the module immediately. -/
theorem C9_witness :
    ((Block.construct 1 ({} : Module)).1.addInstruction
        (Instruction.make 7 3 (Op.OpOther 77)) ({} : Module)).1.instructions
      = (Block.construct 1 ({} : Module)).1.instructions
        ++ [Instruction.make 7 3 (Op.OpOther 77)]
    ∧ ((Block.construct 1 ({} : Module)).1.addInstruction
        (Instruction.make 7 3 (Op.OpOther 77)) ({} : Module)).2.getInstruction 7
      = some (Instruction.make 7 3 (Op.OpOther 77)) := by
  have h := C9_block_addInstruction (Block.construct 1 ({} : Module)).1
    (Instruction.make 7 3 (Op.OpOther 77)) ({} : Module)
  exact ⟨h.1, h.2.1 (by decide)⟩

/-- C10: every dump operation only appends to the output word vector:
the words already present stay unchanged as a prefix, and the words
produced do not depend on that prior content. -/
theorem C10_dump_append_only :
    (∀ (i : Instruction) (out : List Nat), i.dump out = out ++ i.dump [])
      ∧ (∀ (b : Block) (out : List Nat), b.dump out = out ++ b.dump [])
      ∧ (∀ (f : Function) (out : List Nat), f.dump out = out ++ f.dump [])
      ∧ (∀ (m : Module) (out : List Nat), m.dump out = out ++ m.dump []) :=
  ⟨instruction_dump_append, block_dump_append, function_dump_append, module_dump_append⟩

/-- C5: `Block::dump` contributes zero words when the unreachable flag is
set and the block holds at most 2 instructions; otherwise it emits the
label instruction first, then every local-variable instruction in order,
then the remaining main-sequence instructions in order. -/
theorem C5_block_dump (b : Block) (out : List Nat) :
    (b.unreachable = true → b.instructions.length ≤ 2 → b.dump out = out)
      ∧ (∀ (i0 : Instruction) (rest : List Instruction), b.instructions = i0 :: rest →
          ¬(b.unreachable = true ∧ b.instructions.length ≤ 2) →
          b.dump out = out ++ i0.dump []
            ++ (b.localVariables.map (fun i => i.dump [])).flatten
            ++ (rest.map (fun i => i.dump [])).flatten) := by
  constructor
  · intro hu hl
    unfold Block.dump
    rw [if_pos ⟨hu, hl⟩]
  · intro i0 rest hins hskip
    unfold Block.dump
    rw [if_neg hskip, hins]
    show rest.foldl (fun o i => i.dump o)
        (b.localVariables.foldl (fun o i => i.dump o) (i0.dump out)) = _
    rw [foldl_instr_dump, foldl_instr_dump, instruction_dump_append i0 out]

/-- C5 witness: an unreachable block holding only its label dumps to
nothing, while a reachable block with the same single instruction dumps
its label words. -/
theorem C5_witness :
    Block.dump
        { instructions := [Instruction.make 1 0 Op.OpLabel], unreachable := true } [] = []
      ∧ Block.dump
          { instructions := [Instruction.make 1 0 Op.OpLabel], unreachable := false } []
        = [] ++ (Instruction.make 1 0 Op.OpLabel).dump []
          ++ (([] : List Instruction).map (fun i => i.dump [])).flatten
          ++ (([] : List Instruction).map (fun i => i.dump [])).flatten := by
  have h1 := (C5_block_dump
    { instructions := [Instruction.make 1 0 Op.OpLabel], unreachable := true } []).1
    rfl (by decide)
  have h2 := (C5_block_dump
    { instructions := [Instruction.make 1 0 Op.OpLabel], unreachable := false } []).2
    (Instruction.make 1 0 Op.OpLabel) [] rfl (by decide)
  exact ⟨h1, h2⟩

/-- C6: registering instructions with `Module::mapInstruction` in
strictly increasing (possibly non-contiguous) result-id order makes every
registered id retrievable with `getInstruction`, returning exactly the
instruction registered for it; moreover whenever the table has to grow,
it grows to the fixed size `resultId + 16`, so growth never loses prior
mappings. -/
theorem C6_mapInstruction_getInstruction (m : Module) (insts : List Instruction)
    (hinc : (insts.map Instruction.resultId).Pairwise (· < ·)) :
    (∀ inst ∈ insts,
        (insts.foldl Module.mapInstruction m).getInstruction inst.resultId = some inst)
      ∧ (∀ (m2 : Module) (i2 : Instruction),
          m2.idToInstruction.length ≤ i2.resultId →
          (m2.mapInstruction i2).idToInstruction.length = i2.resultId + 16) := by
  constructor
  · intro inst hmem
    exact foldl_mapInstruction_mem insts m inst hmem
      (hinc.imp (fun h => Nat.ne_of_lt h))
  · exact fun m2 i2 h => Module.length_mapInstruction_of_grow m2 i2 h

/-- C6 witness: registering result ids 1, 5 and 40 in order (id 40
forcing the table to regrow from 17 to 56 slots) leaves id 5 mapped to
the instruction registered for it. -/
theorem C6_witness :
    (([Instruction.make 1 0 (Op.OpOther 60), Instruction.make 5 0 (Op.OpOther 61),
        Instruction.make 40 0 (Op.OpOther 62)].foldl Module.mapInstruction
        ({} : Module)).getInstruction 5 = some (Instruction.make 5 0 (Op.OpOther 61)))
      ∧ (({} : Module).mapInstruction
          (Instruction.make 40 0 (Op.OpOther 62))).idToInstruction.length = 56 := by
  have h := C6_mapInstruction_getInstruction ({} : Module)
    [Instruction.make 1 0 (Op.OpOther 60), Instruction.make 5 0 (Op.OpOther 61),
      Instruction.make 40 0 (Op.OpOther 62)] (by decide)
  exact ⟨h.1 (Instruction.make 5 0 (Op.OpOther 61)) (by decide),
    (h.2 ({} : Module) (Instruction.make 40 0 (Op.OpOther 62)) (by decide)).trans (by decide)⟩

/-- C3: `insertInstructionBeforeTerminal` places the new instruction as
follows — after a conditional branch or switch it lands two positions
from the end; after an unconditional branch, two positions from the end
when the second-to-last instruction is a loop merge and one position
from the end (immediately before the branch) otherwise; before a
kill/return/return-value it lands immediately before that terminator;
with any other last opcode it is appended at the end. -/
theorem C3_insertInstructionBeforeTerminal (b : Block) (inst last : Instruction)
    (hlast : b.instructions.getLast? = some last) :
    ((last.opCode = Op.OpBranchConditional ∨ last.opCode = Op.OpSwitch) →
        (b.insertInstructionBeforeTerminal inst).instructions
          = b.instructions.take (b.instructions.length - 2)
            ++ inst :: b.instructions.drop (b.instructions.length - 2))
      ∧ (last.opCode = Op.OpBranch → 1 < b.instructions.length →
          opAt b.instructions (b.instructions.length - 2) = Op.OpLoopMerge →
          (b.insertInstructionBeforeTerminal inst).instructions
            = b.instructions.take (b.instructions.length - 2)
              ++ inst :: b.instructions.drop (b.instructions.length - 2))
      ∧ (last.opCode = Op.OpBranch →
          ¬(1 < b.instructions.length
            ∧ opAt b.instructions (b.instructions.length - 2) = Op.OpLoopMerge) →
          (b.insertInstructionBeforeTerminal inst).instructions
            = b.instructions.dropLast ++ [inst, last])
      ∧ ((last.opCode = Op.OpKill ∨ last.opCode = Op.OpReturn
            ∨ last.opCode = Op.OpReturnValue) →
          (b.insertInstructionBeforeTerminal inst).instructions
            = b.instructions.dropLast ++ [inst, last])
      ∧ (last.opCode ∉ [Op.OpBranch, Op.OpBranchConditional, Op.OpSwitch, Op.OpKill,
            Op.OpReturn, Op.OpReturnValue] →
          (b.insertInstructionBeforeTerminal inst).instructions
            = b.instructions ++ [inst]) := by
  have hone : insertAt (b.instructions.length - 1) inst b.instructions
      = b.instructions.dropLast ++ [inst, last] := by
    unfold insertAt
    rw [← List.dropLast_eq_take, drop_length_sub_one b.instructions last hlast]
  refine ⟨?_, ?_, ?_, ?_, ?_⟩
  · intro h
    show insertBeforeTerminal b.instructions inst = _
    rcases h with h | h <;> simp only [insertBeforeTerminal, hlast, h] <;> rfl
  · intro h h1 h2
    show insertBeforeTerminal b.instructions inst = _
    simp only [insertBeforeTerminal, hlast, h]
    rw [if_pos ⟨h1, h2⟩]
    rfl
  · intro h hn
    show insertBeforeTerminal b.instructions inst = _
    simp only [insertBeforeTerminal, hlast, h]
    rw [if_neg hn, hone]
  · intro h
    show insertBeforeTerminal b.instructions inst = _
    rcases h with h | h | h <;> simp only [insertBeforeTerminal, hlast, h] <;> exact hone
  · intro h
    show insertBeforeTerminal b.instructions inst = _
    simp only [insertBeforeTerminal, hlast]
    cases hop : last.opCode <;> rw [hop] at h <;> simp at h

/-- C3 witness: inserting into a block ending in a loop-merge followed by
an unconditional branch lands two from the end (the merge stays glued to
the branch); inserting into a block ending in return-with-value lands
immediately before the return. -/
theorem C3_witness :
    (Block.insertInstructionBeforeTerminal
        { instructions := [Instruction.make 1 0 Op.OpLabel,
            Instruction.make 0 0 Op.OpLoopMerge, Instruction.make 0 0 Op.OpBranch] }
        (Instruction.make 9 0 (Op.OpOther 100))).instructions
      = [Instruction.make 1 0 Op.OpLabel, Instruction.make 9 0 (Op.OpOther 100),
          Instruction.make 0 0 Op.OpLoopMerge, Instruction.make 0 0 Op.OpBranch]
    ∧ (Block.insertInstructionBeforeTerminal
        { instructions := [Instruction.make 1 0 Op.OpLabel,
            Instruction.make 0 0 Op.OpReturnValue] }
        (Instruction.make 9 0 (Op.OpOther 100))).instructions
      = [Instruction.make 1 0 Op.OpLabel, Instruction.make 9 0 (Op.OpOther 100),
          Instruction.make 0 0 Op.OpReturnValue] := by
  have h1 := (C3_insertInstructionBeforeTerminal
    { instructions := [Instruction.make 1 0 Op.OpLabel,
        Instruction.make 0 0 Op.OpLoopMerge, Instruction.make 0 0 Op.OpBranch] }
    (Instruction.make 9 0 (Op.OpOther 100)) (Instruction.make 0 0 Op.OpBranch)
    (by decide)).2.1 (by decide) (by decide) (by decide)
  have h2 := (C3_insertInstructionBeforeTerminal
    { instructions := [Instruction.make 1 0 Op.OpLabel,
        Instruction.make 0 0 Op.OpReturnValue] }
    (Instruction.make 9 0 (Op.OpOther 100)) (Instruction.make 0 0 Op.OpReturnValue)
    (by decide)).2.2.2.1 (Or.inr (Or.inr rfl))
  exact ⟨h1.trans (by decide), h2.trans (by decide)⟩

/-- C7: constructing a `Function` against a registered function-type
instruction whose operands are a return type followed by N parameter
types creates exactly N parameter instructions with contiguous result
ids starting at the supplied first-parameter id, each carrying the
corresponding parameter type from the function-type's operand list, and
registers each one with the module's id index. -/
theorem C7_function_parameters (m : Module)
    (id resultType functionType firstParamId retType : Nat) (paramTypes : List Nat)
    (typeInst : Instruction)
    (hlook : m.getInstruction functionType = some typeInst)
    (hops : typeInst.operands = retType :: paramTypes)
    (hne : functionType ≠ id)
    (hfit : firstParamId + paramTypes.length < 2 ^ 32) :
    (Function.construct id resultType functionType firstParamId
          m).1.parameterInstructions.length = paramTypes.length
      ∧ (∀ k, k < paramTypes.length →
          (Function.construct id resultType functionType firstParamId
              m).1.parameterInstructions.get? k
            = some (Instruction.make (firstParamId + k) (paramTypes.getD k 0)
              Op.OpFunctionParameter))
      ∧ (∀ k, k < paramTypes.length →
          (Function.construct id resultType functionType firstParamId m).2.getInstruction
              (firstParamId + k)
            = some (Instruction.make (firstParamId + k) (paramTypes.getD k 0)
              Op.OpFunctionParameter)) := by
  have hfilookup :=
    (Module.getInstruction_mapInstruction_ne m
      (((Instruction.make id resultType Op.OpFunction).addImmediateOperand
        FunctionControlMaskNone).addIdOperand functionType) functionType hne).trans hlook
  have hN : typeInst.operands.length - 1 = paramTypes.length := by
    rw [hops]; simp
  have hmk : ∀ k, k < paramTypes.length →
      mkParamInstruction firstParamId typeInst k
        = Instruction.make (firstParamId + k) (paramTypes.getD k 0)
          Op.OpFunctionParameter := by
    intro k hk
    unfold mkParamInstruction
    rw [hops, List.getD_cons_succ, Nat.mod_eq_of_lt (by omega)]
  have hpw : (((List.range' 0 paramTypes.length).map
      (mkParamInstruction firstParamId typeInst)).map Instruction.resultId).Pairwise
        (· ≠ ·) := by
    rw [List.pairwise_map, List.pairwise_map, ← List.range_eq_range']
    refine (List.pairwise_lt_range paramTypes.length).imp_of_mem ?_
    intro a b ha hb hab
    have ha2 := List.mem_range.mp ha
    have hb2 := List.mem_range.mp hb
    show ¬(firstParamId + a) % 2 ^ 32 = (firstParamId + b) % 2 ^ 32
    rw [Nat.mod_eq_of_lt (by omega), Nat.mod_eq_of_lt (by omega)]
    omega
  simp only [Function.construct, hfilookup, hN, paramLoopGo_fst, paramLoopGo_snd]
  refine ⟨?_, ?_, ?_⟩
  · simp [List.length_range']
  · intro k hk
    rw [List.get?_eq_getElem?, List.getElem?_map, List.getElem?_range' 0 1 hk]
    simp [hmk k hk]
  · intro k hk
    rw [Module.getInstruction_addFunction]
    have hmem : Instruction.make (firstParamId + k) (paramTypes.getD k 0)
        Op.OpFunctionParameter
        ∈ (List.range' 0 paramTypes.length).map
          (mkParamInstruction firstParamId typeInst) := by
      rw [← hmk k hk]
      exact List.mem_map_of_mem _ (List.mem_range'_1.mpr ⟨Nat.zero_le k, by omega⟩)
    exact foldl_mapInstruction_mem _ _ _ hmem hpw

/-- C7 witness: against a module holding a function type with result id
3, return type 2 and parameter types 10 and 11, constructing a function
with first parameter id 20 yields two parameter instructions; id 21
resolves to the second one, carrying type 11. -/
theorem C7_witness :
    (Function.construct 9 2 3 20 (Module.mapInstruction {}
          ((((Instruction.make 3 0 Op.OpTypeFunction).addIdOperand 2).addIdOperand
            10).addIdOperand 11))).1.parameterInstructions.length = 2
      ∧ (Function.construct 9 2 3 20 (Module.mapInstruction {}
            ((((Instruction.make 3 0 Op.OpTypeFunction).addIdOperand 2).addIdOperand
              10).addIdOperand 11))).2.getInstruction 21
          = some (Instruction.make 21 11 Op.OpFunctionParameter) := by
  have h := C7_function_parameters (Module.mapInstruction {}
      ((((Instruction.make 3 0 Op.OpTypeFunction).addIdOperand 2).addIdOperand
        10).addIdOperand 11)) 9 2 3 20 2 [10, 11]
    ((((Instruction.make 3 0 Op.OpTypeFunction).addIdOperand 2).addIdOperand
      10).addIdOperand 11) (by decide) (by decide) (by decide) (by decide)
  exact ⟨h.1, h.2.2 1 (by decide)⟩

end spv
